import Mathlib

/-!
Shallow embedding of the Sudoku engine in `src/sudoku.rs` (crate `tui_sudoku`).

A 9×9 grid of `u8` cells is modelled as a total function `Fin 9 → Fin 9 → Nat`;
the boolean mask as `Fin 9 → Fin 9 → Bool`.  Operations that take raw `usize`
coordinates and index the arrays directly can panic in Rust; they are modelled
as `Option`-valued functions where `none` stands for the panic.  Operations that
bounds-check first (`set_number`, `clear_number`) are total.

The backtracking generator shuffles the candidate digits once per recursive
call with a thread-local RNG.  The RNG is modelled as an oracle
`sh : Nat → List Nat` handing out the successive shuffles, threaded through the
computation by a counter; the Rust `shuffle` guarantees each handed-out list is
a permutation of `[1,…,9]`, which appears as a hypothesis in the theorems.
Recursion depth is modelled by explicit fuel: one unit per cell placement,
exactly the "depth bounded by 81, one per cell" reading of the spec.
-/

/-- A 9×9 grid of cell values (0 = empty, 1–9 = digits), as in `[[u8; 9]; 9]`. -/
def Grid9 : Type := Fin 9 → Fin 9 → Nat

/-- A 9×9 boolean mask, as in `[[bool; 9]; 9]`. -/
def Mask9 : Type := Fin 9 → Fin 9 → Bool

/-- Point update of a grid cell: `grid[r][c] = v`. -/
def updateG (g : Grid9) (r c : Fin 9) (v : Nat) : Grid9 :=
  fun r' c' => if r' = r ∧ c' = c then v else g r' c'

/-- Point update of a mask cell: `mask[r][c] = b`. -/
def updateM (m : Mask9) (r c : Fin 9) (b : Bool) : Mask9 :=
  fun r' c' => if r' = r ∧ c' = c then b else m r' c'

/-- The all-zero grid `[[0u8; SIZE]; SIZE]`. -/
def zeroGrid : Grid9 := fun _ _ => 0

/-- `enum Difficulty { Easy, Medium, Hard }`. -/
inductive Difficulty where
  | easy
  | medium
  | hard
deriving DecidableEq

/-- `Difficulty::cells_to_keep`: the number of clue cells to keep. -/
def Difficulty.cellsToKeep : Difficulty → Nat
  | .easy => 45
  | .medium => 35
  | .hard => 25

/-- `struct SudokuGrid { solution, current, fixed }`. -/
structure SudokuGrid where
  solution : Grid9
  current : Grid9
  fixed : Mask9

/-- `SudokuGrid::set_number`: bounds- and fixed-checked write of `num` into
`current[r][c]`; returns the Rust `bool` result paired with the new state. -/
def SudokuGrid.setNumber (g : SudokuGrid) (r c num : Nat) : Bool × SudokuGrid :=
  if h : r < 9 ∧ c < 9 then
    if g.fixed ⟨r, h.1⟩ ⟨c, h.2⟩ then (false, g)
    else if num ≤ 9 then
      (true, { g with current := updateG g.current ⟨r, h.1⟩ ⟨c, h.2⟩ num })
    else (false, g)
  else (false, g)

/-- `SudokuGrid::clear_number`: `set_number(r, c, 0)`. -/
def SudokuGrid.clearNumber (g : SudokuGrid) (r c : Nat) : Bool × SudokuGrid :=
  g.setNumber r c 0

/-- `SudokuGrid::get_cell`.  The Rust code indexes `solution[r][c]` /
`current[r][c]` without a bounds check, so out-of-range coordinates panic:
the outer `Option` is `none` on panic, `some` on normal return (whose inner
`Option` is the Rust `Option<u8>` result). -/
def SudokuGrid.getCell (g : SudokuGrid) (r c : Nat) (showSolution : Bool) :
    Option (Option Nat) :=
  if h : r < 9 ∧ c < 9 then
    let val := if showSolution then g.solution ⟨r, h.1⟩ ⟨c, h.2⟩
               else g.current ⟨r, h.1⟩ ⟨c, h.2⟩
    some (if val = 0 then none else some val)
  else none

/-- `SudokuGrid::is_fixed`: direct mask lookup `self.fixed[r][c]`, which
panics out of range (`none` models the panic). -/
def SudokuGrid.isFixed (g : SudokuGrid) (r c : Nat) : Option Bool :=
  if h : r < 9 ∧ c < 9 then some (g.fixed ⟨r, h.1⟩ ⟨c, h.2⟩) else none

/-- A single read `self.current[r][c]` with `usize` indices; `none` models the
index-out-of-bounds panic. -/
def SudokuGrid.idxCur (g : SudokuGrid) (r c : Nat) : Option Nat :=
  if h : r < 9 ∧ c < 9 then some (g.current ⟨r, h.1⟩ ⟨c, h.2⟩) else none

/-- One scanning loop of `is_valid_move`: read each listed cell of `current`
in order; panic (`none`) propagates, a cell holding `num` returns
`some false` early, otherwise the scan passes with `some true`. -/
def SudokuGrid.checkCells (g : SudokuGrid) (num : Nat) :
    List (Nat × Nat) → Option Bool
  | [] => some true
  | p :: rest =>
    match g.idxCur p.1 p.2 with
    | none => none
    | some v => if v = num then some false else g.checkCells num rest

/-- The cells read by the row loop of `is_valid_move`: `(r, col)` for
`col` in `0..9`, skipping `col == c` (the read is short-circuited away). -/
def rowCells (r c : Nat) : List (Nat × Nat) :=
  (List.range 9).filterMap fun col => if col = c then none else some (r, col)

/-- The cells read by the column loop of `is_valid_move`. -/
def colCells (r c : Nat) : List (Nat × Nat) :=
  (List.range 9).filterMap fun row => if row = r then none else some (row, c)

/-- The cells read by the box loop of `is_valid_move`: box origin
`(r - r % 3, c - c % 3)`, skipping the cell `(r, c)` itself. -/
def boxCells (r c : Nat) : List (Nat × Nat) :=
  (List.range 3).flatMap fun i => (List.range 3).filterMap fun j =>
    if r - r % 3 + i = r ∧ c - c % 3 + j = c then none
    else some (r - r % 3 + i, c - c % 3 + j)

/-- `SudokuGrid::is_valid_move`: `num == 0` is always valid; otherwise scan
the row, then the column, then the box, with early `false` on a conflict.
`none` models the panic of an out-of-range array read. -/
def SudokuGrid.isValidMove (g : SudokuGrid) (r c num : Nat) : Option Bool :=
  if num = 0 then some true
  else
    match g.checkCells num (rowCells r c) with
    | none => none
    | some false => some false
    | some true =>
      match g.checkCells num (colCells r c) with
      | none => none
      | some false => some false
      | some true => g.checkCells num (boxCells r c)

/-- `SudokuGrid::is_solved`: `self.current == self.solution`, i.e. cell-wise
equality of the two arrays. -/
def SudokuGrid.isSolved (g : SudokuGrid) : Bool :=
  decide (∀ r c, g.current r c = g.solution r c)

/-- The digit list `[1, 2, 3, 4, 5, 6, 7, 8, 9]` that the generator shuffles. -/
def nums19 : List Nat := [1, 2, 3, 4, 5, 6, 7, 8, 9]

/-- In-box coordinate: `start_row + row` where `start_row = r - r % 3`,
stays inside `0..9`. -/
def boxCell (r : Fin 9) (i : Fin 3) : Fin 9 :=
  ⟨r.val - r.val % 3 + i.val, by
    have h1 := r.isLt
    have h2 := i.isLt
    omega⟩

/-- `Generator::is_safe`: `num` appears nowhere in row `r`, column `c`, or the
3×3 box of `(r, c)` (the cell itself included — it is empty during
generation). -/
def Generator.isSafe (g : Grid9) (r c : Fin 9) (num : Nat) : Bool :=
  decide (∀ col : Fin 9, g r col ≠ num) &&
  decide (∀ row : Fin 9, g row c ≠ num) &&
  decide (∀ i j : Fin 3, g (boxCell r i) (boxCell c j) ≠ num)

/-- All 81 coordinates in the row-major order of the two nested loops of
`Generator::find_empty`. -/
def pairList : List (Fin 9 × Fin 9) :=
  (List.finRange 9).flatMap fun r => (List.finRange 9).map fun c => (r, c)

/-- `Generator::find_empty`: the first cell (row-major) holding 0, if any. -/
def Generator.findEmpty (g : Grid9) : Option (Fin 9 × Fin 9) :=
  pairList.find? fun p => decide (g p.1 p.2 = 0)

/-- The candidate loop of `Generator::fill`: try the shuffled digits in order;
on a safe digit, place it and run the recursive call `next` (the recursion at
one smaller depth); on its failure, reset the cell to 0 (backtrack) and
continue with the next candidate.  The RNG counter is threaded through. -/
def Generator.goTry (next : Nat → Grid9 → Bool × Grid9 × Nat) (r c : Fin 9) :
    List Nat → Nat → Grid9 → Bool × Grid9 × Nat
  | [], k, g => (false, g, k)
  | n :: rest, k, g =>
    if Generator.isSafe g r c n then
      match next k (updateG g r c n) with
      | (true, g', k') => (true, g', k')
      | (false, g', k') => Generator.goTry next r c rest k' (updateG g' r c 0)
    else Generator.goTry next r c rest k g

/-- `Generator::fill`, with the RNG modelled by the shuffle oracle `sh` (one
shuffled digit list per recursive call, indexed by the threaded counter) and
recursion depth modelled by `fuel` (one unit per cell placement; the Rust
recursion needs at most 81, one per empty cell).  Returns the Rust `bool`
result, the final grid, and the next oracle index. -/
def Generator.fill (sh : Nat → List Nat) :
    Nat → Nat → Grid9 → Bool × Grid9 × Nat
  | 0, k, g =>
    match Generator.findEmpty g with
    | none => (true, g, k)
    | some _ => (false, g, k)
  | fuel + 1, k, g =>
    match Generator.findEmpty g with
    | none => (true, g, k)
    | some (r, c) =>
      Generator.goTry (fun k' g' => Generator.fill sh fuel k' g') r c
        (sh k) (k + 1) g

/-- The list of all 81 coordinates `(i / 9, i % 9)` for `i` in `0..81`, the
order in which `SudokuGrid::new` builds the cell list before shuffling it. -/
def allCells : List (Fin 9 × Fin 9) :=
  (List.finRange 81).map fun i =>
    (⟨i.val / 9, by have := i.isLt; omega⟩, ⟨i.val % 9, by omega⟩)

/-- One step of the removal loop of `SudokuGrid::new`:
`current[r][c] = 0; fixed[r][c] = false`. -/
def removeStep (st : Grid9 × Mask9) (rc : Fin 9 × Fin 9) : Grid9 × Mask9 :=
  (updateG st.1 rc.1 rc.2 0, updateM st.2 rc.1 rc.2 false)

/-- `SudokuGrid::new`: generate a full solution from the all-zero grid
(`fill`'s `bool` result is ignored, as in the source), start `current` from
the solution with every cell fixed, then clear the first
`min(81 - cells_to_keep, 70)` coordinates of the shuffled cell list `cells`
(an arbitrary permutation of all 81 coordinates, modelling the shuffle). -/
def SudokuGrid.new (sh : Nat → List Nat) (cells : List (Fin 9 × Fin 9))
    (d : Difficulty) : SudokuGrid :=
  let solution := (Generator.fill sh 81 0 zeroGrid).2.1
  let numbersToRemove := min (81 - d.cellsToKeep) 70
  let st := (cells.take numbersToRemove).foldl removeStep
    (solution, fun _ _ => true)
  ⟨solution, st.1, st.2⟩

/-- One player mutation call: `set_number` or `clear_number`. -/
inductive Op where
  | set (r c num : Nat)
  | clear (r c : Nat)

/-- Apply one mutation call to the grid state (discarding the `bool` result,
as the state evolution does). -/
def applyOp (g : SudokuGrid) : Op → SudokuGrid
  | .set r c num => (g.setNumber r c num).2
  | .clear r c => (g.clearNumber r c).2

/-- Apply a sequence of mutation calls in order. -/
def applyOps (g : SudokuGrid) (ops : List Op) : SudokuGrid :=
  ops.foldl applyOp g

/-- A complete, rule-valid Sudoku solution: all entries in 1–9, and equal
entries in a common row, column, or 3×3 box only at the same cell. -/
def validSolution (s : Grid9) : Prop :=
  (∀ r c, 1 ≤ s r c ∧ s r c ≤ 9) ∧
  (∀ r c c', s r c = s r c' → c = c') ∧
  (∀ r r' c, s r c = s r' c → r = r') ∧
  (∀ r c r' c', r.val / 3 = r'.val / 3 → c.val / 3 = c'.val / 3 →
    s r c = s r' c' → r = r' ∧ c = c')

instance (s : Grid9) : Decidable (validSolution s) := by
  unfold validSolution
  infer_instance

/-- No Sudoku-rule conflict among the nonzero cells of a partial grid. -/
def noConflicts (g : Grid9) : Prop :=
  (∀ r c c', g r c ≠ 0 → g r c = g r c' → c = c') ∧
  (∀ r r' c, g r c ≠ 0 → g r c = g r' c → r = r') ∧
  (∀ r c r' c', g r c ≠ 0 → r.val / 3 = r'.val / 3 → c.val / 3 = c'.val / 3 →
    g r c = g r' c' → r = r' ∧ c = c')

instance (g : Grid9) : Decidable (noConflicts g) := by
  unfold noConflicts
  infer_instance

/-- The partial grid `g` agrees with the full grid `s` on its filled cells. -/
def agreesOn (s g : Grid9) : Prop :=
  ∀ r c, g r c ≠ 0 → g r c = s r c

/-- Number of empty cells of a grid. -/
def zerosCount (g : Grid9) : Nat :=
  (Finset.univ.filter fun p : Fin 9 × Fin 9 => g p.1 p.2 = 0).card

/-- A concrete full Sudoku solution (the cyclic construction), used as the
witness completion of the empty grid. -/
def S0 : Grid9 :=
  fun r c => (3 * (r.val % 3) + r.val / 3 + c.val) % 9 + 1

/-- The digit `S0` holds at the `k`-th cell in row-major order. -/
def S0digit (k : Nat) : Nat :=
  (3 * ((k / 9) % 3) + (k / 9) / 3 + (k % 9)) % 9 + 1

/-- A shuffle oracle that proposes the `S0` digit of the `k`-th cell first,
so that the generator reproduces `S0` without backtracking. -/
def shF : Nat → List Nat :=
  fun k => S0digit k :: nums19.erase (S0digit k)

/-- The constant oracle handing out the unshuffled digit list every time. -/
def constSh : Nat → List Nat := fun _ => nums19

/-- Exchange of row indices 0 and 1 (rows of the same band). -/
def swap01 : Fin 9 → Fin 9 :=
  fun r => if r.val = 0 then ⟨1, by omega⟩
           else if r.val = 1 then ⟨0, by omega⟩ else r

/-- `S0` with rows 0 and 1 exchanged: a second full rule-valid solution that
agrees with `S0` everywhere outside rows 0 and 1. -/
def S1 : Grid9 := fun r c => S0 (swap01 r) c

/-- A concrete puzzle state produced by `SudokuGrid::new` on Hard with the
forcing oracle (solution `S0`) and the unshuffled cell order, so the 56
removed cells are the row-major cells 0–55. -/
def cexBase : SudokuGrid := SudokuGrid.new shF allCells Difficulty.hard

/-- Player moves writing the `S1` digit into every removed cell of
`cexBase`. -/
def cexOps : List Op :=
  (allCells.take 56).map fun rc => Op.set rc.1.val rc.2.val (S1 rc.1 rc.2)

/-- The reachable state after playing `cexOps` on `cexBase`: its `current`
is the full valid grid `S1`, different from the stored solution `S0`. -/
def cexFinal : SudokuGrid := applyOps cexBase cexOps

/-- A sample state with no fixed cells. -/
def gFree : SudokuGrid := ⟨S0, S0, fun _ _ => false⟩

/-- A sample state with every cell fixed. -/
def gFixedAll : SudokuGrid := ⟨S0, S0, fun _ _ => true⟩

/-- The clue invariant: every fixed cell of `current` holds its solution
value. -/
def clueInv (g : SudokuGrid) : Prop :=
  ∀ r c, g.fixed r c = true → g.current r c = g.solution r c

/-- `num` occurs in the current grid in row `r`, column `c`, or the 3×3 box
with origin `(r - r % 3, c - c % 3)`, at some coordinate other than `(r, c)`
itself. -/
def conflictAt (g : SudokuGrid) (r c : Fin 9) (num : Nat) : Prop :=
  ∃ r' c' : Fin 9, ¬(r' = r ∧ c' = c) ∧
    (r' = r ∨ c' = c ∨
      (r'.val - r'.val % 3 = r.val - r.val % 3 ∧
       c'.val - c'.val % 3 = c.val - c.val % 3)) ∧
    g.current r' c' = num

instance (g : SudokuGrid) (r c : Fin 9) (num : Nat) :
    Decidable (conflictAt g r c num) := by
  unfold conflictAt
  infer_instance

/-- Cell coordinate `3 * b + i` inside band/stack `b` (for stating the box
conditions: box `(br, bc)` consists of the cells
`(bandCell br i, bandCell bc j)`). -/
def bandCell (b i : Fin 3) : Fin 9 :=
  ⟨3 * b.val + i.val, by
    have h1 := b.isLt
    have h2 := i.isLt
    omega⟩

/-! ## Basic lemmas about the player operations -/

lemma setNumber_inRange (g : SudokuGrid) (r c : Fin 9) (num : Nat) :
    g.setNumber r.val c.val num =
      if g.fixed r c then (false, g)
      else if num ≤ 9 then
        (true, { g with current := updateG g.current r c num })
      else (false, g) := by
  have hb : r.val < 9 ∧ c.val < 9 := ⟨r.isLt, c.isLt⟩
  simp only [SudokuGrid.setNumber, dif_pos hb, Fin.eta]

lemma updateG_self (g : Grid9) (r c : Fin 9) (v : Nat) :
    updateG g r c v r c = v := by
  simp [updateG]

lemma updateG_ne (g : Grid9) (r c : Fin 9) (v : Nat) {r' c' : Fin 9}
    (h : ¬(r' = r ∧ c' = c)) : updateG g r c v r' c' = g r' c' := by
  simp only [updateG, if_neg h]

/-- C5: on an in-range, non-fixed cell, `set_number` with `0 ≤ num ≤ 9`
returns `true` and stores `num` in `current[r][c]`. -/
theorem C5_setNumber_nonfixed (g : SudokuGrid) (r c : Fin 9) (num : Nat)
    (hfix : g.fixed r c = false) (hnum : num ≤ 9) :
    (g.setNumber r.val c.val num).1 = true ∧
    (g.setNumber r.val c.val num).2.current r c = num := by
  rw [setNumber_inRange, if_neg (by simp [hfix]), if_pos hnum]
  exact ⟨rfl, updateG_self ..⟩

/-- Witness for C5 at a concrete grid, cell, and digit. -/
theorem C5_setNumber_nonfixed_witness :
    gFree.fixed 0 0 = false ∧ (5 : Nat) ≤ 9 ∧
    ((gFree.setNumber (0 : Fin 9).val (0 : Fin 9).val 5).1 = true ∧
     (gFree.setNumber (0 : Fin 9).val (0 : Fin 9).val 5).2.current 0 0 = 5) :=
  ⟨rfl, by decide, C5_setNumber_nonfixed gFree 0 0 5 rfl (by decide)⟩

/-- C6: whenever `set_number` returns `false` (out-of-range coordinates,
fixed cell, or digit above 9), the whole grid state is unchanged. -/
theorem C6_setNumber_failure_atomic (g : SudokuGrid) (r c num : Nat)
    (h : (g.setNumber r c num).1 = false) : (g.setNumber r c num).2 = g := by
  by_cases hb : r < 9 ∧ c < 9
  · rw [SudokuGrid.setNumber, dif_pos hb] at h ⊢
    by_cases hf : g.fixed ⟨r, hb.1⟩ ⟨c, hb.2⟩ = true
    · rw [if_pos hf]
    · rw [if_neg hf] at h ⊢
      by_cases hn : num ≤ 9
      · rw [if_pos hn] at h
        exact absurd h (by simp)
      · rw [if_neg hn]
  · rw [SudokuGrid.setNumber, dif_neg hb]

/-- Witness for C6: a write to a fixed cell fails and preserves the state. -/
theorem C6_setNumber_failure_atomic_witness :
    (gFixedAll.setNumber 0 0 5).1 = false ∧
    (gFixedAll.setNumber 0 0 5).2 = gFixedAll :=
  ⟨rfl, C6_setNumber_failure_atomic gFixedAll 0 0 5 rfl⟩

/-- C10: on an in-range, non-fixed cell, `set_number` with `num > 9`
returns `false` and leaves the grid unchanged. -/
theorem C10_setNumber_digit_range (g : SudokuGrid) (r c : Fin 9) (num : Nat)
    (hfix : g.fixed r c = false) (hnum : 9 < num) :
    (g.setNumber r.val c.val num).1 = false ∧
    (g.setNumber r.val c.val num).2 = g := by
  rw [setNumber_inRange, if_neg (by simp [hfix]), if_neg (by omega)]
  exact ⟨rfl, rfl⟩

/-- Witness for C10 at a concrete grid, cell, and digit. -/
theorem C10_setNumber_digit_range_witness :
    gFree.fixed 0 0 = false ∧ (9 : Nat) < 10 ∧
    ((gFree.setNumber (0 : Fin 9).val (0 : Fin 9).val 10).1 = false ∧
     (gFree.setNumber (0 : Fin 9).val (0 : Fin 9).val 10).2 = gFree) :=
  ⟨rfl, by decide, C10_setNumber_digit_range gFree 0 0 10 rfl (by decide)⟩

/-! ## `is_valid_move`: scan lemmas -/

lemma idxCur_inRange (g : SudokuGrid) {a b : Nat} (ha : a < 9) (hb : b < 9) :
    g.idxCur a b = some (g.current ⟨a, ha⟩ ⟨b, hb⟩) := by
  rw [SudokuGrid.idxCur, dif_pos ⟨ha, hb⟩]

lemma checkCells_eq_all (g : SudokuGrid) (num : Nat) :
    ∀ l : List (Nat × Nat), (∀ p ∈ l, p.1 < 9 ∧ p.2 < 9) →
      g.checkCells num l =
        some (l.all fun p => g.idxCur p.1 p.2 != some num) := by
  intro l
  induction l with
  | nil => intro _; rfl
  | cons p rest ih =>
    intro hl
    have hp := hl p (List.mem_cons_self p rest)
    have hrest := fun q hq => hl q (List.mem_cons_of_mem p hq)
    have hidx : g.idxCur p.1 p.2 =
        some (g.current ⟨p.1, hp.1⟩ ⟨p.2, hp.2⟩) := idxCur_inRange g hp.1 hp.2
    by_cases hv : g.current ⟨p.1, hp.1⟩ ⟨p.2, hp.2⟩ = num
    · simp only [SudokuGrid.checkCells, hidx, List.all_cons, if_pos hv, hv]
      simp
    · simp only [SudokuGrid.checkCells, hidx, List.all_cons, if_neg hv,
        ih hrest]
      simp [hv]

lemma mem_rowCells {r c a b : Nat} :
    (a, b) ∈ rowCells r c ↔ a = r ∧ b < 9 ∧ b ≠ c := by
  simp only [rowCells, List.mem_filterMap, List.mem_range]
  constructor
  · rintro ⟨col, hcol, heq⟩
    by_cases h : col = c
    · rw [if_pos h] at heq; exact absurd heq (by simp)
    · rw [if_neg h] at heq
      simp only [Option.some.injEq, Prod.mk.injEq] at heq
      obtain ⟨rfl, rfl⟩ := heq
      exact ⟨rfl, hcol, h⟩
  · rintro ⟨rfl, hb, hbc⟩
    exact ⟨b, hb, by rw [if_neg hbc]⟩

lemma mem_colCells {r c a b : Nat} :
    (a, b) ∈ colCells r c ↔ b = c ∧ a < 9 ∧ a ≠ r := by
  simp only [colCells, List.mem_filterMap, List.mem_range]
  constructor
  · rintro ⟨row, hrow, heq⟩
    by_cases h : row = r
    · rw [if_pos h] at heq; exact absurd heq (by simp)
    · rw [if_neg h] at heq
      simp only [Option.some.injEq, Prod.mk.injEq] at heq
      obtain ⟨rfl, rfl⟩ := heq
      exact ⟨rfl, hrow, h⟩
  · rintro ⟨rfl, ha, har⟩
    exact ⟨a, ha, by rw [if_neg har]⟩

lemma mem_boxCells {r c a b : Nat} :
    (a, b) ∈ boxCells r c ↔
      ∃ i < 3, ∃ j < 3, a = r - r % 3 + i ∧ b = c - c % 3 + j ∧
        ¬(a = r ∧ b = c) := by
  simp only [boxCells, List.mem_flatMap, List.mem_filterMap, List.mem_range]
  constructor
  · rintro ⟨i, hi, j, hj, heq⟩
    by_cases h : r - r % 3 + i = r ∧ c - c % 3 + j = c
    · rw [if_pos h] at heq; exact absurd heq (by simp)
    · rw [if_neg h] at heq
      simp only [Option.some.injEq, Prod.mk.injEq] at heq
      obtain ⟨rfl, rfl⟩ := heq
      exact ⟨i, hi, j, hj, rfl, rfl, h⟩
  · rintro ⟨i, hi, j, hj, rfl, rfl, hne⟩
    exact ⟨i, hi, j, hj, by rw [if_neg hne]⟩

lemma rowCells_inRange (r c : Fin 9) :
    ∀ p ∈ rowCells r.val c.val, p.1 < 9 ∧ p.2 < 9 := by
  rintro ⟨a, b⟩ hp
  rw [mem_rowCells] at hp
  exact ⟨hp.1 ▸ r.isLt, hp.2.1⟩

lemma colCells_inRange (r c : Fin 9) :
    ∀ p ∈ colCells r.val c.val, p.1 < 9 ∧ p.2 < 9 := by
  rintro ⟨a, b⟩ hp
  rw [mem_colCells] at hp
  exact ⟨hp.2.1, hp.1 ▸ c.isLt⟩

lemma boxCells_inRange (r c : Fin 9) :
    ∀ p ∈ boxCells r.val c.val, p.1 < 9 ∧ p.2 < 9 := by
  rintro ⟨a, b⟩ hp
  rw [mem_boxCells] at hp
  obtain ⟨i, hi, j, hj, rfl, rfl, -⟩ := hp
  have hr := r.isLt
  have hc := c.isLt
  omega

lemma isValidMove_inRange (g : SudokuGrid) (r c : Fin 9) (num : Nat)
    (hnum : num ≠ 0) :
    g.isValidMove r.val c.val num =
      some
        ((((rowCells r.val c.val).all fun p => g.idxCur p.1 p.2 != some num) &&
          ((colCells r.val c.val).all fun p => g.idxCur p.1 p.2 != some num)) &&
         ((boxCells r.val c.val).all fun p => g.idxCur p.1 p.2 != some num)) := by
  rw [SudokuGrid.isValidMove, if_neg hnum,
    checkCells_eq_all g num _ (rowCells_inRange r c),
    checkCells_eq_all g num _ (colCells_inRange r c),
    checkCells_eq_all g num _ (boxCells_inRange r c)]
  cases hrow : (rowCells r.val c.val).all fun p => g.idxCur p.1 p.2 != some num
  · rfl
  · cases hcol : (colCells r.val c.val).all fun p => g.idxCur p.1 p.2 != some num
    · rfl
    · rfl

lemma conflictAt_iff_exists (g : SudokuGrid) (r c : Fin 9) (num : Nat) :
    conflictAt g r c num ↔
      (∃ p ∈ rowCells r.val c.val, g.idxCur p.1 p.2 = some num) ∨
      (∃ p ∈ colCells r.val c.val, g.idxCur p.1 p.2 = some num) ∨
      (∃ p ∈ boxCells r.val c.val, g.idxCur p.1 p.2 = some num) := by
  constructor
  · rintro ⟨r', c', hne, hreg, hval⟩
    have hval' : g.idxCur r'.val c'.val = some num := by
      rw [idxCur_inRange g r'.isLt c'.isLt]
      simp [Fin.eta, hval]
    rcases hreg with hrr | hcc | hbox
    · left
      refine ⟨(r'.val, c'.val), ?_, hval'⟩
      rw [mem_rowCells]
      refine ⟨by rw [hrr], c'.isLt, fun hcv => hne ⟨hrr, Fin.ext hcv⟩⟩
    · right; left
      refine ⟨(r'.val, c'.val), ?_, hval'⟩
      rw [mem_colCells]
      exact ⟨by rw [hcc], r'.isLt, fun hrv => hne ⟨Fin.ext hrv, hcc⟩⟩
    · right; right
      refine ⟨(r'.val, c'.val), ?_, hval'⟩
      rw [mem_boxCells]
      have h1 := hbox.1
      have h2 := hbox.2
      have hr := r.isLt
      have hc := c.isLt
      have hr' := r'.isLt
      have hc' := c'.isLt
      refine ⟨r'.val % 3, by omega, c'.val % 3, by omega, by omega, by omega,
        ?_⟩
      rintro ⟨ha, hb⟩
      exact hne ⟨Fin.ext ha, Fin.ext hb⟩
  · rintro (⟨⟨a, b⟩, hp, hval⟩ | ⟨⟨a, b⟩, hp, hval⟩ | ⟨⟨a, b⟩, hp, hval⟩)
    · rw [mem_rowCells] at hp
      obtain ⟨rfl, hb9, hbc⟩ := hp
      rw [idxCur_inRange g r.isLt hb9] at hval
      refine ⟨r, ⟨b, hb9⟩, ?_, Or.inl rfl, ?_⟩
      · rintro ⟨-, hceq⟩
        exact hbc (congrArg Fin.val hceq)
      · simpa [Fin.eta] using hval
    · rw [mem_colCells] at hp
      obtain ⟨rfl, ha9, har⟩ := hp
      rw [idxCur_inRange g ha9 c.isLt] at hval
      refine ⟨⟨a, ha9⟩, c, ?_, Or.inr (Or.inl rfl), ?_⟩
      · rintro ⟨hreq, -⟩
        exact har (congrArg Fin.val hreq)
      · simpa [Fin.eta] using hval
    · rw [mem_boxCells] at hp
      obtain ⟨i, hi, j, hj, rfl, rfl, hne'⟩ := hp
      have hr := r.isLt
      have hc := c.isLt
      have ha9 : r.val - r.val % 3 + i < 9 := by omega
      have hb9 : c.val - c.val % 3 + j < 9 := by omega
      rw [idxCur_inRange g ha9 hb9] at hval
      refine ⟨⟨_, ha9⟩, ⟨_, hb9⟩, ?_, Or.inr (Or.inr ⟨?_, ?_⟩),
        Option.some.inj hval⟩
      · rintro ⟨h1, h2⟩
        exact hne' ⟨congrArg Fin.val h1, congrArg Fin.val h2⟩
      · show r.val - r.val % 3 + i - (r.val - r.val % 3 + i) % 3 =
          r.val - r.val % 3
        omega
      · show c.val - c.val % 3 + j - (c.val - c.val % 3 + j) % 3 =
          c.val - c.val % 3
        omega

lemma validMove_bool_iff (g : SudokuGrid) (r c : Fin 9) (num : Nat) :
    ((((rowCells r.val c.val).all fun p => g.idxCur p.1 p.2 != some num) &&
      ((colCells r.val c.val).all fun p => g.idxCur p.1 p.2 != some num)) &&
     ((boxCells r.val c.val).all fun p => g.idxCur p.1 p.2 != some num)) =
        true ↔
      ¬conflictAt g r c num := by
  rw [Bool.and_eq_true, Bool.and_eq_true, conflictAt_iff_exists]
  simp only [List.all_eq_true, bne_iff_ne, ne_eq]
  push_neg
  constructor
  · rintro ⟨⟨h1, h2⟩, h3⟩
    exact ⟨h1, h2, h3⟩
  · rintro ⟨h1, h2, h3⟩
    exact ⟨⟨h1, h2⟩, h3⟩

/-- C2: for an in-range cell, `is_valid_move(r, c, num)` returns normally,
and returns `false` exactly when `num ≠ 0` and `num` occurs in row `r`,
column `c`, or the box of `(r, c)` at a coordinate other than `(r, c)`; in
particular `num = 0` always yields `true`. -/
theorem C2_isValidMove_symmetry (g : SudokuGrid) (r c : Fin 9) (num : Nat) :
    (g.isValidMove r.val c.val num = some false ↔
      num ≠ 0 ∧ conflictAt g r c num) ∧
    (g.isValidMove r.val c.val num = some true ↔
      ¬(num ≠ 0 ∧ conflictAt g r c num)) := by
  by_cases hnum : num = 0
  · subst hnum
    rw [SudokuGrid.isValidMove, if_pos rfl]
    constructor
    · simp
    · simp
  · have hbool := validMove_bool_iff g r c num
    rw [isValidMove_inRange g r c num hnum]
    constructor
    · simp only [Option.some.injEq]
      constructor
      · intro h
        refine ⟨hnum, not_not.mp fun hc => ?_⟩
        rw [← hbool] at hc
        exact absurd (h.symm.trans hc) (by simp)
      · rintro ⟨-, hconf⟩
        exact Bool.eq_false_iff.mpr fun hxt => (hbool.mp hxt) hconf
    · simp only [Option.some.injEq]
      rw [hbool]
      simp [hnum]

/-- C8 counterexample: on a reachable grid, the unguarded array reads of
`get_cell`, `is_fixed`, and `is_valid_move` (with a nonzero digit) panic for
the out-of-range coordinate `r = 9` (`none` models the panic), so not every
engine operation returns normally on every input. -/
theorem C8_counterexample_out_of_range_panics :
    cexBase.getCell 9 0 false = none ∧ cexBase.isFixed 9 0 = none ∧
    cexBase.isValidMove 9 0 5 = none := by
  refine ⟨?_, ?_, ?_⟩
  · rw [SudokuGrid.getCell, dif_neg (by omega)]
  · rw [SudokuGrid.isFixed, dif_neg (by omega)]
  · rfl

/-- C8 (amended): `set_number` and `clear_number` are total on all inputs
(they bounds-check first); `get_cell`, `is_fixed`, and `is_valid_move`
return normally (no panic) for every in-range coordinate, and
`is_valid_move` with `num = 0` returns `true` for any coordinates. -/
theorem C8_amended_no_panic_in_range (g : SudokuGrid) (r c : Fin 9)
    (num : Nat) (sol : Bool) :
    (∃ v, g.getCell r.val c.val sol = some v) ∧
    (∃ b, g.isFixed r.val c.val = some b) ∧
    (∃ b, g.isValidMove r.val c.val num = some b) ∧
    (∀ r' c' : Nat, g.isValidMove r' c' 0 = some true) := by
  have hb : r.val < 9 ∧ c.val < 9 := ⟨r.isLt, c.isLt⟩
  refine ⟨⟨_, by rw [SudokuGrid.getCell, dif_pos hb]⟩,
    ⟨_, by rw [SudokuGrid.isFixed, dif_pos hb]⟩, ?_,
    fun r' c' => by rw [SudokuGrid.isValidMove, if_pos rfl]⟩
  by_cases hnum : num = 0
  · subst hnum
    exact ⟨true, by rw [SudokuGrid.isValidMove, if_pos rfl]⟩
  · exact ⟨_, isValidMove_inRange g r c num hnum⟩

/-! ## Generator: basic lemmas -/

lemma mem_nums19 {n : Nat} : n ∈ nums19 ↔ 1 ≤ n ∧ n ≤ 9 := by
  simp [nums19]
  omega

lemma mem_pairList (p : Fin 9 × Fin 9) : p ∈ pairList := by
  rcases p with ⟨r, c⟩
  simp only [pairList, List.mem_flatMap, List.mem_map, List.mem_finRange]
  exact ⟨r, trivial, c, trivial, rfl⟩

lemma findEmpty_some {g : Grid9} {r c : Fin 9}
    (h : Generator.findEmpty g = some (r, c)) : g r c = 0 := by
  have := List.find?_some h
  simpa using this

lemma findEmpty_none_forall {g : Grid9} (h : Generator.findEmpty g = none) :
    ∀ r c, g r c ≠ 0 := by
  rw [Generator.findEmpty, List.find?_eq_none] at h
  intro r c
  have := h (r, c) (mem_pairList _)
  simpa using this

lemma updateG_reset {g : Grid9} {r c : Fin 9} (hg : g r c = 0) (n : Nat) :
    updateG (updateG g r c n) r c 0 = g := by
  funext r' c'
  by_cases h : r' = r ∧ c' = c
  · obtain ⟨rfl, rfl⟩ := h
    rw [updateG_self, hg]
  · rw [updateG_ne _ _ _ _ h, updateG_ne _ _ _ _ h]

lemma goTry_cons (next : Nat → Grid9 → Bool × Grid9 × Nat) (r c : Fin 9)
    (n : Nat) (rest : List Nat) (k : Nat) (g : Grid9) :
    Generator.goTry next r c (n :: rest) k g =
      if Generator.isSafe g r c n then
        match next k (updateG g r c n) with
        | (true, g', k') => (true, g', k')
        | (false, g', k') =>
          Generator.goTry next r c rest k' (updateG g' r c 0)
      else Generator.goTry next r c rest k g := rfl

lemma goTry_cons_skip {next : Nat → Grid9 → Bool × Grid9 × Nat}
    {r c : Fin 9} {n : Nat} {g : Grid9}
    (hs : ¬Generator.isSafe g r c n = true) (rest : List Nat) (k : Nat) :
    Generator.goTry next r c (n :: rest) k g =
      Generator.goTry next r c rest k g := by
  rw [goTry_cons, if_neg hs]

lemma goTry_cons_safe_true {next : Nat → Grid9 → Bool × Grid9 × Nat}
    {r c : Fin 9} {n : Nat} {g g' : Grid9} {k k' : Nat}
    (hs : Generator.isSafe g r c n = true)
    (hnk : next k (updateG g r c n) = (true, g', k')) (rest : List Nat) :
    Generator.goTry next r c (n :: rest) k g = (true, g', k') := by
  rw [goTry_cons, if_pos hs, hnk]

lemma goTry_cons_safe_false {next : Nat → Grid9 → Bool × Grid9 × Nat}
    {r c : Fin 9} {n : Nat} {g g' : Grid9} {k k' : Nat}
    (hs : Generator.isSafe g r c n = true)
    (hnk : next k (updateG g r c n) = (false, g', k')) (rest : List Nat) :
    Generator.goTry next r c (n :: rest) k g =
      Generator.goTry next r c rest k' (updateG g' r c 0) := by
  rw [goTry_cons, if_pos hs, hnk]

lemma fill_zero_eq (sh : Nat → List Nat) (k : Nat) (g : Grid9) :
    Generator.fill sh 0 k g =
      match Generator.findEmpty g with
      | none => (true, g, k)
      | some _ => (false, g, k) := rfl

lemma fill_succ_none {sh : Nat → List Nat} {g : Grid9}
    (hf : Generator.findEmpty g = none) (fuel k : Nat) :
    Generator.fill sh (fuel + 1) k g = (true, g, k) := by
  rw [Generator.fill, hf]

lemma fill_zero_none {sh : Nat → List Nat} {g : Grid9}
    (hf : Generator.findEmpty g = none) (k : Nat) :
    Generator.fill sh 0 k g = (true, g, k) := by
  rw [Generator.fill, hf]

lemma fill_zero_some {sh : Nat → List Nat} {g : Grid9} {r c : Fin 9}
    (hf : Generator.findEmpty g = some (r, c)) (k : Nat) :
    Generator.fill sh 0 k g = (false, g, k) := by
  rw [Generator.fill, hf]

lemma fill_succ_some {sh : Nat → List Nat} {g : Grid9} {r c : Fin 9}
    (hf : Generator.findEmpty g = some (r, c)) (fuel k : Nat) :
    Generator.fill sh (fuel + 1) k g =
      Generator.goTry (fun k' g' => Generator.fill sh fuel k' g') r c
        (sh k) (k + 1) g := by
  rw [Generator.fill, hf]

lemma goTry_false_preserves (next : Nat → Grid9 → Bool × Grid9 × Nat)
    (hnext : ∀ k g, (next k g).1 = false → (next k g).2.1 = g)
    (r c : Fin 9) (g : Grid9) (hg : g r c = 0) :
    ∀ (l : List Nat) (k : Nat),
      (Generator.goTry next r c l k g).1 = false →
      (Generator.goTry next r c l k g).2.1 = g := by
  intro l
  induction l with
  | nil => intro k _; rfl
  | cons n rest ih =>
    intro k h
    by_cases hs : Generator.isSafe g r c n = true
    · obtain ⟨⟨b, g', k'⟩, hnk⟩ : ∃ t, next k (updateG g r c n) = t := ⟨_, rfl⟩
      cases b
      · have hg' : g' = updateG g r c n := by
          have h2 := hnext k (updateG g r c n)
          rw [hnk] at h2
          exact h2 rfl
        rw [goTry_cons_safe_false hs hnk, hg', updateG_reset hg] at h ⊢
        exact ih k' h
      · rw [goTry_cons_safe_true hs hnk] at h
        exact absurd h (by simp)
    · rw [goTry_cons_skip hs] at h ⊢
      exact ih k h

lemma fill_false_preserves (sh : Nat → List Nat) :
    ∀ (fuel k : Nat) (g : Grid9),
      (Generator.fill sh fuel k g).1 = false →
      (Generator.fill sh fuel k g).2.1 = g := by
  intro fuel
  induction fuel with
  | zero =>
    intro k g h
    rcases hf : Generator.findEmpty g with _ | ⟨r, c⟩
    · rw [fill_zero_none hf]
    · rw [fill_zero_some hf]
  | succ fuel ih =>
    intro k g h
    rcases hf : Generator.findEmpty g with _ | ⟨r, c⟩
    · rw [fill_succ_none hf]
    · rw [fill_succ_some hf] at h ⊢
      exact goTry_false_preserves _ (fun k' g' => ih k' g') r c g
        (findEmpty_some hf) _ _ h

lemma zerosCount_update {g : Grid9} {r c : Fin 9} (hg : g r c = 0) {n : Nat}
    (hn : n ≠ 0) : zerosCount (updateG g r c n) + 1 = zerosCount g := by
  unfold zerosCount
  have hmem : (r, c) ∈
      Finset.univ.filter fun p : Fin 9 × Fin 9 => g p.1 p.2 = 0 := by
    simp [hg]
  have hset :
      (Finset.univ.filter fun p : Fin 9 × Fin 9 => updateG g r c n p.1 p.2 = 0) =
        (Finset.univ.filter fun p : Fin 9 × Fin 9 => g p.1 p.2 = 0).erase
          (r, c) := by
    ext ⟨a, b⟩
    simp only [Finset.mem_filter, Finset.mem_erase, Finset.mem_univ, true_and]
    constructor
    · intro hu
      by_cases hab : a = r ∧ b = c
      · obtain ⟨rfl, rfl⟩ := hab
        rw [updateG_self] at hu
        exact absurd hu hn
      · rw [updateG_ne _ _ _ _ hab] at hu
        refine ⟨fun heq => hab ?_, hu⟩
        obtain ⟨h1, h2⟩ := Prod.mk.injEq .. ▸ heq
        exact ⟨h1, h2⟩
    · rintro ⟨hne, hz⟩
      have hab : ¬(a = r ∧ b = c) := fun habc =>
        hne (by rw [habc.1, habc.2])
      rw [updateG_ne _ _ _ _ hab]
      exact hz
  rw [hset, Finset.card_erase_of_mem hmem]
  have hpos :
      0 < (Finset.univ.filter fun p : Fin 9 × Fin 9 => g p.1 p.2 = 0).card :=
    Finset.card_pos.mpr ⟨(r, c), hmem⟩
  omega

lemma isSafe_of_valid {s g : Grid9} (hs : validSolution s) (hag : agreesOn s g)
    {r c : Fin 9} (h0 : g r c = 0) : Generator.isSafe g r c (s r c) = true := by
  obtain ⟨hb, hrow, hcol, hbox⟩ := hs
  rw [Generator.isSafe]
  simp only [Bool.and_eq_true, decide_eq_true_eq]
  refine ⟨⟨?_, ?_⟩, ?_⟩
  · intro col hco
    have hnz : g r col ≠ 0 := by
      rw [hco]
      have := (hb r c).1
      omega
    have hagv := hag r col hnz
    rw [hagv] at hco
    have hcc := hrow r col c hco
    subst hcc
    exact hnz h0
  · intro row hro
    have hnz : g row c ≠ 0 := by
      rw [hro]
      have := (hb r c).1
      omega
    have hagv := hag row c hnz
    rw [hagv] at hro
    have hrr := hcol row r c hro
    subst hrr
    exact hnz h0
  · intro i j hij
    have hnz : g (boxCell r i) (boxCell c j) ≠ 0 := by
      rw [hij]
      have := (hb r c).1
      omega
    have hagv := hag _ _ hnz
    rw [hagv] at hij
    have hdiv1 : (boxCell r i).val / 3 = r.val / 3 := by
      show (r.val - r.val % 3 + i.val) / 3 = r.val / 3
      have := r.isLt
      have := i.isLt
      omega
    have hdiv2 : (boxCell c j).val / 3 = c.val / 3 := by
      show (c.val - c.val % 3 + j.val) / 3 = c.val / 3
      have := c.isLt
      have := j.isLt
      omega
    obtain ⟨he1, he2⟩ := hbox _ _ _ _ hdiv1 hdiv2 hij
    rw [he1, he2] at hnz
    exact hnz h0

lemma goTry_success (next : Nat → Grid9 → Bool × Grid9 × Nat)
    (hnext : ∀ k g, (next k g).1 = false → (next k g).2.1 = g)
    (r c : Fin 9) (g : Grid9) (hg : g r c = 0) (num : Nat)
    (hsafe : Generator.isSafe g r c num = true)
    (hwin : ∀ k', (next k' (updateG g r c num)).1 = true) :
    ∀ (l : List Nat), num ∈ l → ∀ k,
      (Generator.goTry next r c l k g).1 = true := by
  intro l
  induction l with
  | nil => intro hmem; exact absurd hmem (List.not_mem_nil num)
  | cons n rest ih =>
    intro hmem k
    obtain ⟨⟨b, g', k'⟩, hnk⟩ : ∃ t, next k (updateG g r c n) = t := ⟨_, rfl⟩
    by_cases heq : n = num
    · subst heq
      cases b
      · have := hwin k
        rw [hnk] at this
        exact absurd this (by simp)
      · rw [goTry_cons_safe_true hsafe hnk]
    · have hrest : num ∈ rest := by
        rcases List.mem_cons.mp hmem with h | h
        · exact absurd h.symm heq
        · exact h
      by_cases hs : Generator.isSafe g r c n = true
      · cases b
        · have hg' : g' = updateG g r c n := by
            have h2 := hnext k (updateG g r c n)
            rw [hnk] at h2
            exact h2 rfl
          rw [goTry_cons_safe_false hs hnk, hg', updateG_reset hg]
          exact ih hrest k'
        · rw [goTry_cons_safe_true hs hnk]
      · rw [goTry_cons_skip hs]
        exact ih hrest k

lemma fill_success (sh : Nat → List Nat)
    (hsh : ∀ k n, 1 ≤ n → n ≤ 9 → n ∈ sh k)
    {s : Grid9} (hs : validSolution s) :
    ∀ (fuel : Nat) (g : Grid9) (k : Nat), agreesOn s g →
      zerosCount g ≤ fuel → (Generator.fill sh fuel k g).1 = true := by
  intro fuel
  induction fuel with
  | zero =>
    intro g k hag hz
    rcases hf : Generator.findEmpty g with _ | ⟨r, c⟩
    · rw [fill_zero_none hf]
    · exfalso
      have h0 := findEmpty_some hf
      have hpos : 0 < zerosCount g :=
        Finset.card_pos.mpr ⟨(r, c), by simp [zerosCount, h0]⟩
      omega
  | succ fuel ih =>
    intro g k hag hz
    rcases hf : Generator.findEmpty g with _ | ⟨r, c⟩
    · rw [fill_succ_none hf]
    · rw [fill_succ_some hf]
      have h0 := findEmpty_some hf
      have hsafe := isSafe_of_valid hs hag h0
      have hmem : s r c ∈ sh k := hsh k (s r c) (hs.1 r c).1 (hs.1 r c).2
      refine goTry_success _ (fun k' g' => fill_false_preserves sh fuel k' g')
        r c g h0 (s r c) hsafe ?_ (sh k) hmem (k + 1)
      intro k'
      apply ih
      · intro a b hnz
        by_cases hab : a = r ∧ b = c
        · obtain ⟨rfl, rfl⟩ := hab
          rw [updateG_self]
        · rw [updateG_ne _ _ _ _ hab] at hnz ⊢
          exact hag a b hnz
      · have hnz : s r c ≠ 0 := by
          have := (hs.1 r c).1
          omega
        have := zerosCount_update h0 hnz
        omega

lemma goTry_true_exists (next : Nat → Grid9 → Bool × Grid9 × Nat)
    (hnext : ∀ k g, (next k g).1 = false → (next k g).2.1 = g)
    (r c : Fin 9) (g : Grid9) (hg : g r c = 0) :
    ∀ (l : List Nat) (k : Nat),
      (Generator.goTry next r c l k g).1 = true →
      ∃ n ∈ l, ∃ k', Generator.isSafe g r c n = true ∧
        (next k' (updateG g r c n)).1 = true ∧
        Generator.goTry next r c l k g = next k' (updateG g r c n) := by
  intro l
  induction l with
  | nil =>
    intro k h
    exact absurd h (by simp [Generator.goTry])
  | cons n rest ih =>
    intro k h
    obtain ⟨⟨b, g', k'⟩, hnk⟩ : ∃ t, next k (updateG g r c n) = t := ⟨_, rfl⟩
    by_cases hs : Generator.isSafe g r c n = true
    · cases b
      · have hg' : g' = updateG g r c n := by
          have h2 := hnext k (updateG g r c n)
          rw [hnk] at h2
          exact h2 rfl
        have hstep := goTry_cons_safe_false hs hnk rest
        rw [hg', updateG_reset hg] at hstep
        rw [hstep] at h
        obtain ⟨m, hm, k'', hsafe', htrue', heq'⟩ := ih k' h
        exact ⟨m, List.mem_cons_of_mem _ hm, k'', hsafe', htrue',
          hstep.trans heq'⟩
      · have hstep := goTry_cons_safe_true hs hnk rest
        refine ⟨n, List.mem_cons_self _ _, k, hs, ?_, ?_⟩
        · rw [hnk]
        · rw [hstep, hnk]
    · rw [goTry_cons_skip hs] at h
      obtain ⟨m, hm, k'', hsafe', htrue', heq'⟩ := ih k h
      exact ⟨m, List.mem_cons_of_mem _ hm, k'', hsafe', htrue',
        (goTry_cons_skip hs rest k).trans heq'⟩

lemma noConflicts_update {g : Grid9} {r c : Fin 9} {n : Nat}
    (_hg : g r c = 0) (hsafe : Generator.isSafe g r c n = true)
    (hnc : noConflicts g) : noConflicts (updateG g r c n) := by
  obtain ⟨hrow, hcol, hbox⟩ := hnc
  rw [Generator.isSafe] at hsafe
  simp only [Bool.and_eq_true, decide_eq_true_eq] at hsafe
  obtain ⟨⟨hsr, hsc⟩, hsb⟩ := hsafe
  refine ⟨?_, ?_, ?_⟩
  · intro a b b' hnz heq
    by_cases hab : a = r ∧ b = c
    · by_cases hab' : a = r ∧ b' = c
      · rw [hab.2, hab'.2]
      · exfalso
        rw [hab.1] at heq
        rw [hab.2] at heq
        have hne' : ¬(r = r ∧ b' = c) := fun h2 => hab' ⟨hab.1, h2.2⟩
        rw [updateG_self, updateG_ne _ _ _ _ hne'] at heq
        exact (hsr b') heq.symm
    · rw [updateG_ne _ _ _ _ hab] at hnz heq
      by_cases hab' : a = r ∧ b' = c
      · exfalso
        rw [hab'.1] at heq
        rw [hab'.2] at heq
        rw [updateG_self] at heq
        exact (hsr b) heq
      · rw [updateG_ne _ _ _ _ hab'] at heq
        exact hrow a b b' hnz heq
  · intro a a' b hnz heq
    by_cases hab : a = r ∧ b = c
    · by_cases hab' : a' = r ∧ b = c
      · rw [hab.1, hab'.1]
      · exfalso
        rw [hab.1] at heq
        rw [hab.2] at heq
        have hne' : ¬(a' = r ∧ c = c) := fun h2 => hab' ⟨h2.1, hab.2⟩
        rw [updateG_self, updateG_ne _ _ _ _ hne'] at heq
        exact (hsc a') heq.symm
    · rw [updateG_ne _ _ _ _ hab] at hnz heq
      by_cases hab' : a' = r ∧ b = c
      · exfalso
        rw [hab'.1] at heq
        rw [hab'.2] at heq
        rw [updateG_self] at heq
        exact (hsc a) heq
      · rw [updateG_ne _ _ _ _ hab'] at heq
        exact hcol a a' b hnz heq
  · intro a b a' b' hnz hd1 hd2 heq
    by_cases hab : a = r ∧ b = c
    · by_cases hab' : a' = r ∧ b' = c
      · exact ⟨hab.1.trans hab'.1.symm, hab.2.trans hab'.2.symm⟩
      · exfalso
        rw [hab.1] at heq hd1
        rw [hab.2] at heq hd2
        rw [updateG_self, updateG_ne _ _ _ _ hab'] at heq
        have hi : a'.val % 3 < 3 := Nat.mod_lt _ (by omega)
        have hj : b'.val % 3 < 3 := Nat.mod_lt _ (by omega)
        have hbc1 : boxCell r ⟨a'.val % 3, hi⟩ = a' := by
          apply Fin.ext
          show r.val - r.val % 3 + a'.val % 3 = a'.val
          have := r.isLt
          have := a'.isLt
          omega
        have hbc2 : boxCell c ⟨b'.val % 3, hj⟩ = b' := by
          apply Fin.ext
          show c.val - c.val % 3 + b'.val % 3 = b'.val
          have := c.isLt
          have := b'.isLt
          omega
        have hbx := hsb ⟨a'.val % 3, hi⟩ ⟨b'.val % 3, hj⟩
        rw [hbc1, hbc2] at hbx
        exact hbx heq.symm
    · rw [updateG_ne _ _ _ _ hab] at hnz heq
      by_cases hab' : a' = r ∧ b' = c
      · exfalso
        rw [hab'.1] at heq hd1
        rw [hab'.2] at heq hd2
        rw [updateG_self] at heq
        have hi : a.val % 3 < 3 := Nat.mod_lt _ (by omega)
        have hj : b.val % 3 < 3 := Nat.mod_lt _ (by omega)
        have hbc1 : boxCell r ⟨a.val % 3, hi⟩ = a := by
          apply Fin.ext
          show r.val - r.val % 3 + a.val % 3 = a.val
          have := r.isLt
          have := a.isLt
          omega
        have hbc2 : boxCell c ⟨b.val % 3, hj⟩ = b := by
          apply Fin.ext
          show c.val - c.val % 3 + b.val % 3 = b.val
          have := c.isLt
          have := b.isLt
          omega
        have hbx := hsb ⟨a.val % 3, hi⟩ ⟨b.val % 3, hj⟩
        rw [hbc1, hbc2] at hbx
        exact hbx heq
      · rw [updateG_ne _ _ _ _ hab'] at heq
        exact hbox a b a' b' hnz hd1 hd2 heq

lemma fill_true_props (sh : Nat → List Nat)
    (hsh : ∀ k, ∀ n ∈ sh k, 1 ≤ n ∧ n ≤ 9) :
    ∀ (fuel k : Nat) (g : Grid9), (∀ r c, g r c ≤ 9) → noConflicts g →
      (Generator.fill sh fuel k g).1 = true →
      (∀ r c, 1 ≤ (Generator.fill sh fuel k g).2.1 r c ∧
        (Generator.fill sh fuel k g).2.1 r c ≤ 9) ∧
      noConflicts (Generator.fill sh fuel k g).2.1 := by
  intro fuel
  induction fuel with
  | zero =>
    intro k g hb hnc ht
    rcases hf : Generator.findEmpty g with _ | ⟨r, c⟩
    · rw [fill_zero_none hf]
      refine ⟨fun a b => ?_, hnc⟩
      show 1 ≤ g a b ∧ g a b ≤ 9
      have h1 := findEmpty_none_forall hf a b
      have h2 := hb a b
      omega
    · rw [fill_zero_some hf] at ht
      exact absurd ht (by simp)
  | succ fuel ih =>
    intro k g hb hnc ht
    rcases hf : Generator.findEmpty g with _ | ⟨r, c⟩
    · rw [fill_succ_none hf]
      refine ⟨fun a b => ?_, hnc⟩
      show 1 ≤ g a b ∧ g a b ≤ 9
      have h1 := findEmpty_none_forall hf a b
      have h2 := hb a b
      omega
    · rw [fill_succ_some hf] at ht ⊢
      have h0 := findEmpty_some hf
      obtain ⟨n, hnmem, k', hsafe, htrue, heqres⟩ :=
        goTry_true_exists _ (fun k2 g2 => fill_false_preserves sh fuel k2 g2)
          r c g h0 (sh k) (k + 1) ht
      rw [heqres]
      have hn19 := hsh k n hnmem
      refine ih k' (updateG g r c n) ?_ ?_ htrue
      · intro a b
        by_cases hab : a = r ∧ b = c
        · obtain ⟨rfl, rfl⟩ := hab
          rw [updateG_self]
          exact hn19.2
        · rw [updateG_ne _ _ _ _ hab]
          exact hb a b
      · exact noConflicts_update h0 hsafe hnc

lemma image_eq_Icc_of_inj {α : Type} [Fintype α] [DecidableEq α] {f : α → Nat}
    (hcard : Fintype.card α = 9) (hinj : Function.Injective f)
    (hbound : ∀ a, 1 ≤ f a ∧ f a ≤ 9) :
    Finset.image f Finset.univ = Finset.Icc 1 9 := by
  apply Finset.eq_of_subset_of_card_le
  · intro x hx
    simp only [Finset.mem_image] at hx
    obtain ⟨a, -, rfl⟩ := hx
    simp only [Finset.mem_Icc]
    exact hbound a
  · rw [Nat.card_Icc, Finset.card_image_of_injective _ hinj,
      Finset.card_univ, hcard]

lemma grid_regions_valid {g : Grid9} (hb : ∀ r c, 1 ≤ g r c ∧ g r c ≤ 9)
    (hnc : noConflicts g) :
    (∀ r : Fin 9, Function.Injective (fun c => g r c) ∧
      Finset.image (fun c => g r c) Finset.univ = Finset.Icc 1 9) ∧
    (∀ c : Fin 9, Function.Injective (fun r => g r c) ∧
      Finset.image (fun r => g r c) Finset.univ = Finset.Icc 1 9) ∧
    (∀ br bc : Fin 3,
      Function.Injective
        (fun ij : Fin 3 × Fin 3 => g (bandCell br ij.1) (bandCell bc ij.2)) ∧
      Finset.image
        (fun ij : Fin 3 × Fin 3 => g (bandCell br ij.1) (bandCell bc ij.2))
        Finset.univ = Finset.Icc 1 9) := by
  obtain ⟨hrow, hcol, hbox⟩ := hnc
  have hnz : ∀ a b : Fin 9, g a b ≠ 0 := by
    intro a b
    have := (hb a b).1
    omega
  refine ⟨fun r => ?_, fun c => ?_, fun br bc => ?_⟩
  · have hinj : Function.Injective (fun c => g r c) := by
      intro c c' h
      exact hrow r c c' (hnz r c) h
    exact ⟨hinj, image_eq_Icc_of_inj (by simp) hinj fun c => hb r c⟩
  · have hinj : Function.Injective (fun r => g r c) := by
      intro r r' h
      exact hcol r r' c (hnz r c) h
    exact ⟨hinj, image_eq_Icc_of_inj (by simp) hinj fun r => hb r c⟩
  · have hinj : Function.Injective
        (fun ij : Fin 3 × Fin 3 => g (bandCell br ij.1) (bandCell bc ij.2)) := by
      rintro ⟨i, j⟩ ⟨i', j'⟩ h
      have hd1 : (bandCell br i).val / 3 = (bandCell br i').val / 3 := by
        show (3 * br.val + i.val) / 3 = (3 * br.val + i'.val) / 3
        have := i.isLt
        have := i'.isLt
        omega
      have hd2 : (bandCell bc j).val / 3 = (bandCell bc j').val / 3 := by
        show (3 * bc.val + j.val) / 3 = (3 * bc.val + j'.val) / 3
        have := j.isLt
        have := j'.isLt
        omega
      obtain ⟨h1, h2⟩ := hbox _ _ _ _ (hnz _ _) hd1 hd2 h
      have hv1 : 3 * br.val + i.val = 3 * br.val + i'.val := congrArg Fin.val h1
      have hv2 : 3 * bc.val + j.val = 3 * bc.val + j'.val := congrArg Fin.val h2
      have hi2 : i = i' := Fin.ext (by omega)
      have hj2 : j = j' := Fin.ext (by omega)
      rw [hi2, hj2]
    refine ⟨hinj, image_eq_Icc_of_inj (by simp) hinj fun ij => hb _ _⟩

lemma S0_valid : validSolution S0 := by decide

lemma agreesOn_zeroGrid (s : Grid9) : agreesOn s zeroGrid := by
  intro r c h
  exact absurd rfl h

lemma zerosCount_zeroGrid : zerosCount zeroGrid = 81 := by decide

lemma noConflicts_zeroGrid : noConflicts zeroGrid := by decide

lemma perm_oracle_mem {sh : Nat → List Nat}
    (hsh : ∀ k, (sh k).Perm nums19) :
    ∀ k n, 1 ≤ n → n ≤ 9 → n ∈ sh k := by
  intro k n h1 h9
  exact ((hsh k).mem_iff).mpr (mem_nums19.mpr ⟨h1, h9⟩)

lemma perm_oracle_range {sh : Nat → List Nat}
    (hsh : ∀ k, (sh k).Perm nums19) :
    ∀ k, ∀ n ∈ sh k, 1 ≤ n ∧ n ≤ 9 := by
  intro k n hn
  exact mem_nums19.mp (((hsh k).mem_iff).mp hn)

lemma fill_result_valid (sh : Nat → List Nat)
    (hsh : ∀ k, (sh k).Perm nums19) :
    (Generator.fill sh 81 0 zeroGrid).1 = true ∧
    (∀ r c, 1 ≤ (Generator.fill sh 81 0 zeroGrid).2.1 r c ∧
      (Generator.fill sh 81 0 zeroGrid).2.1 r c ≤ 9) ∧
    noConflicts (Generator.fill sh 81 0 zeroGrid).2.1 := by
  have hsucc := fill_success sh (perm_oracle_mem hsh) S0_valid 81 zeroGrid 0
    (agreesOn_zeroGrid S0) (by rw [zerosCount_zeroGrid])
  have hprops := fill_true_props sh (perm_oracle_range hsh) 81 0 zeroGrid
    (fun _ _ => by simp [zeroGrid]) noConflicts_zeroGrid hsucc
  exact ⟨hsucc, hprops.1, hprops.2⟩

lemma new_solution_eq (sh : Nat → List Nat) (cells : List (Fin 9 × Fin 9))
    (d : Difficulty) :
    (SudokuGrid.new sh cells d).solution =
      (Generator.fill sh 81 0 zeroGrid).2.1 := rfl

/-- C9: for every oracle handing the generator permutations of 1–9 (as the
Rust shuffle does), `fill` on the all-zero grid succeeds within recursion
depth 81 — one placement per empty cell — returning `true` with every cell
holding a digit 1–9. -/
theorem C9_fill_succeeds_within_81 (sh : Nat → List Nat)
    (hsh : ∀ k, (sh k).Perm nums19) :
    (Generator.fill sh 81 0 zeroGrid).1 = true ∧
    (∀ r c, 1 ≤ (Generator.fill sh 81 0 zeroGrid).2.1 r c ∧
      (Generator.fill sh 81 0 zeroGrid).2.1 r c ≤ 9) :=
  ⟨(fill_result_valid sh hsh).1, (fill_result_valid sh hsh).2.1⟩

/-- Witness for C9 at the concrete constant oracle. -/
theorem C9_fill_succeeds_within_81_witness :
    (∀ k : Nat, (constSh k).Perm nums19) ∧
    (Generator.fill constSh 81 0 zeroGrid).1 = true :=
  ⟨fun _ => List.Perm.refl _,
    (C9_fill_succeeds_within_81 constSh fun _ => List.Perm.refl _).1⟩

/-- C1: for every grid produced by `SudokuGrid::new` (any difficulty, any
RNG behaviour — oracle shuffles and cell permutation), the stored `solution`
is a complete rule-valid Sudoku: each row, column, and 3×3 box is injective
with value set exactly `{1, …, 9}`. -/
theorem C1_new_solution_valid (sh : Nat → List Nat)
    (cells : List (Fin 9 × Fin 9)) (d : Difficulty)
    (hsh : ∀ k, (sh k).Perm nums19) :
    (∀ r : Fin 9,
      Function.Injective (fun c => (SudokuGrid.new sh cells d).solution r c) ∧
      Finset.image (fun c => (SudokuGrid.new sh cells d).solution r c)
        Finset.univ = Finset.Icc 1 9) ∧
    (∀ c : Fin 9,
      Function.Injective (fun r => (SudokuGrid.new sh cells d).solution r c) ∧
      Finset.image (fun r => (SudokuGrid.new sh cells d).solution r c)
        Finset.univ = Finset.Icc 1 9) ∧
    (∀ br bc : Fin 3,
      Function.Injective (fun ij : Fin 3 × Fin 3 =>
        (SudokuGrid.new sh cells d).solution
          (bandCell br ij.1) (bandCell bc ij.2)) ∧
      Finset.image (fun ij : Fin 3 × Fin 3 =>
        (SudokuGrid.new sh cells d).solution
          (bandCell br ij.1) (bandCell bc ij.2))
        Finset.univ = Finset.Icc 1 9) := by
  rw [new_solution_eq]
  exact grid_regions_valid (fill_result_valid sh hsh).2.1
    (fill_result_valid sh hsh).2.2

/-- Witness for C1 at the constant oracle, the unshuffled cell list, and
Easy difficulty. -/
theorem C1_new_solution_valid_witness :
    (∀ k : Nat, (constSh k).Perm nums19) ∧
    ∀ r : Fin 9,
      Finset.image (fun c => (SudokuGrid.new constSh allCells .easy).solution r c)
        Finset.univ = Finset.Icc 1 9 :=
  ⟨fun _ => List.Perm.refl _,
    fun r => ((C1_new_solution_valid constSh allCells .easy
      fun _ => List.Perm.refl _).1 r).2⟩

/-! ## `SudokuGrid::new`: removal loop lemmas -/

lemma removeFold_spec (l : List (Fin 9 × Fin 9)) :
    ∀ (g : Grid9) (m : Mask9) (r c : Fin 9),
      ((l.foldl removeStep (g, m)).1 r c =
        if (r, c) ∈ l then 0 else g r c) ∧
      ((l.foldl removeStep (g, m)).2 r c =
        if (r, c) ∈ l then false else m r c) := by
  induction l with
  | nil =>
    intro g m r c
    simp
  | cons p rest ih =>
    intro g m r c
    rcases p with ⟨a, b⟩
    rw [List.foldl_cons]
    have hnotmem : ¬(r, c) ∈ ((a, b) :: rest) → ¬(r = a ∧ c = b) := by
      intro hn hab
      exact hn (by rw [hab.1, hab.2]; exact List.mem_cons_self _ _)
    have h := ih (updateG g a b 0) (updateM m a b false) r c
    constructor
    · show (rest.foldl removeStep (updateG g a b 0, updateM m a b false)).1 r c
        = _
      rw [h.1]
      by_cases hmem : (r, c) ∈ rest
      · rw [if_pos hmem, if_pos (List.mem_cons_of_mem _ hmem)]
      · rw [if_neg hmem]
        by_cases hab : r = a ∧ c = b
        · rw [hab.1, hab.2, updateG_self,
            if_pos (List.mem_cons_self _ _)]
        · rw [updateG_ne _ _ _ _ hab, if_neg ?_]
          rw [List.mem_cons]
          rintro (heq | hm)
          · exact hab ⟨congrArg Prod.fst heq, congrArg Prod.snd heq⟩
          · exact hmem hm
    · show (rest.foldl removeStep (updateG g a b 0, updateM m a b false)).2 r c
        = _
      rw [h.2]
      by_cases hmem : (r, c) ∈ rest
      · rw [if_pos hmem, if_pos (List.mem_cons_of_mem _ hmem)]
      · rw [if_neg hmem]
        by_cases hab : r = a ∧ c = b
        · rw [hab.1, hab.2]
          show updateM m a b false a b = _
          rw [if_pos (List.mem_cons_self _ _)]
          simp [updateM]
        · have hne : updateM m a b false r c = m r c := by
            simp only [updateM, if_neg hab]
          rw [hne, if_neg ?_]
          rw [List.mem_cons]
          rintro (heq | hm)
          · exact hab ⟨congrArg Prod.fst heq, congrArg Prod.snd heq⟩
          · exact hmem hm

lemma new_current_spec (sh : Nat → List Nat) (cells : List (Fin 9 × Fin 9))
    (d : Difficulty) (r c : Fin 9) :
    (SudokuGrid.new sh cells d).current r c =
      if (r, c) ∈ cells.take (min (81 - d.cellsToKeep) 70) then 0
      else (SudokuGrid.new sh cells d).solution r c :=
  (removeFold_spec _ _ _ r c).1

lemma new_fixed_spec (sh : Nat → List Nat) (cells : List (Fin 9 × Fin 9))
    (d : Difficulty) (r c : Fin 9) :
    (SudokuGrid.new sh cells d).fixed r c =
      if (r, c) ∈ cells.take (min (81 - d.cellsToKeep) 70) then false
      else true :=
  (removeFold_spec _ _ _ r c).2

lemma allCells_nodup : allCells.Nodup := by decide

lemma allCells_length : allCells.length = 81 := by decide

lemma count_fixed_true (sh : Nat → List Nat) (cells : List (Fin 9 × Fin 9))
    (d : Difficulty) (hcells : cells.Perm allCells) :
    (Finset.univ.filter fun p : Fin 9 × Fin 9 =>
      (SudokuGrid.new sh cells d).fixed p.1 p.2 = true).card =
      81 - min (min (81 - d.cellsToKeep) 70) 81 := by
  have hnodup : cells.Nodup := hcells.nodup_iff.mpr allCells_nodup
  have hlen : cells.length = 81 := hcells.length_eq.trans allCells_length
  have htake : (cells.take (min (81 - d.cellsToKeep) 70)).Nodup :=
    hnodup.sublist (List.take_sublist _ _)
  have hset : (Finset.univ.filter fun p : Fin 9 × Fin 9 =>
      (SudokuGrid.new sh cells d).fixed p.1 p.2 = true) =
      Finset.univ \
        (cells.take (min (81 - d.cellsToKeep) 70)).toFinset := by
    ext ⟨r, c⟩
    simp only [Finset.mem_filter, Finset.mem_univ, true_and, Finset.mem_sdiff,
      List.mem_toFinset]
    rw [new_fixed_spec]
    by_cases hmem : (r, c) ∈ cells.take (min (81 - d.cellsToKeep) 70)
    · rw [if_pos hmem]
      simp [hmem]
    · rw [if_neg hmem]
      simp [hmem]
  rw [hset, Finset.card_sdiff (Finset.subset_univ _),
    List.toFinset_card_of_nodup htake, List.length_take, hlen]
  simp

/-- C7: after `SudokuGrid::new`, the number of fixed cells equals
`min(cells_to_keep, 81)` (45/35/25 for Easy/Medium/Hard); every non-fixed
cell of `current` is empty and every fixed cell keeps its solution value. -/
theorem C7_removal_count (sh : Nat → List Nat) (cells : List (Fin 9 × Fin 9))
    (d : Difficulty) (hcells : cells.Perm allCells) :
    (Finset.univ.filter fun p : Fin 9 × Fin 9 =>
      (SudokuGrid.new sh cells d).fixed p.1 p.2 = true).card =
      min d.cellsToKeep 81 ∧
    (∀ r c, (SudokuGrid.new sh cells d).fixed r c = false →
      (SudokuGrid.new sh cells d).current r c = 0) ∧
    (∀ r c, (SudokuGrid.new sh cells d).fixed r c = true →
      (SudokuGrid.new sh cells d).current r c =
        (SudokuGrid.new sh cells d).solution r c) := by
  refine ⟨?_, ?_, ?_⟩
  · rw [count_fixed_true sh cells d hcells]
    cases d <;> rfl
  · intro r c hfix
    rw [new_fixed_spec] at hfix
    rw [new_current_spec]
    by_cases hmem : (r, c) ∈ cells.take (min (81 - d.cellsToKeep) 70)
    · rw [if_pos hmem]
    · rw [if_neg hmem] at hfix
      exact absurd hfix (by simp)
  · intro r c hfix
    rw [new_fixed_spec] at hfix
    rw [new_current_spec]
    by_cases hmem : (r, c) ∈ cells.take (min (81 - d.cellsToKeep) 70)
    · rw [if_pos hmem] at hfix
      exact absurd hfix (by simp)
    · rw [if_neg hmem]

/-- Witness for C7: Medium difficulty with the identity cell permutation
keeps exactly 35 fixed cells. -/
theorem C7_removal_count_witness :
    allCells.Perm allCells ∧
    (Finset.univ.filter fun p : Fin 9 × Fin 9 =>
      (SudokuGrid.new constSh allCells .medium).fixed p.1 p.2 = true).card =
      35 :=
  ⟨List.Perm.refl _,
    (C7_removal_count constSh allCells .medium (List.Perm.refl _)).1⟩

/-! ## Clue invariant -/

lemma setNumber_preserves (g : SudokuGrid) (r c num : Nat) :
    (g.setNumber r c num).2.solution = g.solution ∧
    (g.setNumber r c num).2.fixed = g.fixed ∧
    ∀ a b : Fin 9, g.fixed a b = true →
      (g.setNumber r c num).2.current a b = g.current a b := by
  by_cases hb : r < 9 ∧ c < 9
  · rw [SudokuGrid.setNumber, dif_pos hb]
    by_cases hf : g.fixed ⟨r, hb.1⟩ ⟨c, hb.2⟩ = true
    · rw [if_pos hf]
      exact ⟨rfl, rfl, fun _ _ _ => rfl⟩
    · rw [if_neg hf]
      by_cases hn : num ≤ 9
      · rw [if_pos hn]
        refine ⟨rfl, rfl, fun a b hab => ?_⟩
        show updateG g.current ⟨r, hb.1⟩ ⟨c, hb.2⟩ num a b = g.current a b
        apply updateG_ne
        rintro ⟨rfl, rfl⟩
        exact hf hab
      · rw [if_neg hn]
        exact ⟨rfl, rfl, fun _ _ _ => rfl⟩
  · rw [SudokuGrid.setNumber, dif_neg hb]
    exact ⟨rfl, rfl, fun _ _ _ => rfl⟩

lemma applyOp_preserves (g : SudokuGrid) (op : Op) :
    (applyOp g op).solution = g.solution ∧
    (applyOp g op).fixed = g.fixed ∧
    ∀ a b : Fin 9, g.fixed a b = true →
      (applyOp g op).current a b = g.current a b := by
  cases op with
  | set r c num => exact setNumber_preserves g r c num
  | clear r c => exact setNumber_preserves g r c 0

lemma clueInv_applyOp {g : SudokuGrid} (hg : clueInv g) (op : Op) :
    clueInv (applyOp g op) := by
  obtain ⟨hsol, hfix, hcur⟩ := applyOp_preserves g op
  intro a b hab
  rw [hfix] at hab
  rw [hsol, hcur a b hab]
  exact hg a b hab

lemma clueInv_applyOps {g : SudokuGrid} (hg : clueInv g) :
    ∀ ops : List Op, clueInv (applyOps g ops) := by
  intro ops
  induction ops generalizing g with
  | nil => exact hg
  | cons op rest ih =>
    show clueInv (applyOps (applyOp g op) rest)
    exact ih (clueInv_applyOp hg op)

lemma clueInv_new (sh : Nat → List Nat) (cells : List (Fin 9 × Fin 9))
    (d : Difficulty) : clueInv (SudokuGrid.new sh cells d) := by
  intro r c hfix
  rw [new_fixed_spec] at hfix
  rw [new_current_spec]
  by_cases hmem : (r, c) ∈ cells.take (min (81 - d.cellsToKeep) 70)
  · rw [if_pos hmem] at hfix
    exact absurd hfix (by simp)
  · rw [if_neg hmem]

/-- C3: every fixed cell holds its solution value in `current` right after
`SudokuGrid::new`, and this clue invariant is preserved by any sequence of
`set_number` / `clear_number` calls. -/
theorem C3_clue_invariant (sh : Nat → List Nat)
    (cells : List (Fin 9 × Fin 9)) (d : Difficulty) (ops : List Op) :
    clueInv (SudokuGrid.new sh cells d) ∧
    clueInv (applyOps (SudokuGrid.new sh cells d) ops) :=
  ⟨clueInv_new sh cells d, clueInv_applyOps (clueInv_new sh cells d) ops⟩

/-! ## `is_solved` -/

lemma applyOps_solution (g : SudokuGrid) :
    ∀ ops : List Op, (applyOps g ops).solution = g.solution := by
  intro ops
  induction ops generalizing g with
  | nil => rfl
  | cons op rest ih =>
    show (applyOps (applyOp g op) rest).solution = _
    rw [ih (applyOp g op), (applyOp_preserves g op).1]

lemma noConflicts_of_valid {s : Grid9} (hs : validSolution s) :
    noConflicts s :=
  ⟨fun r c c' _ h => hs.2.1 r c c' h,
   fun r r' c _ h => hs.2.2.1 r r' c h,
   fun r c r' c' _ hd1 hd2 h => hs.2.2.2 r c r' c' hd1 hd2 h⟩

/-- C4 (amended): in every reachable state, `is_solved()` is `true` exactly
when `current` equals `solution` cell-for-cell, and in that case `current`
is full and satisfies every row/column/box constraint.  (The converse of the
second part fails: see the counterexample theorem.) -/
theorem C4_amended_solved_iff (sh : Nat → List Nat)
    (cells : List (Fin 9 × Fin 9)) (d : Difficulty) (ops : List Op)
    (hsh : ∀ k, (sh k).Perm nums19) :
    ((applyOps (SudokuGrid.new sh cells d) ops).isSolved = true ↔
      ∀ r c, (applyOps (SudokuGrid.new sh cells d) ops).current r c =
        (applyOps (SudokuGrid.new sh cells d) ops).solution r c) ∧
    ((applyOps (SudokuGrid.new sh cells d) ops).isSolved = true →
      (∀ r c, (applyOps (SudokuGrid.new sh cells d) ops).current r c ≠ 0) ∧
      noConflicts (applyOps (SudokuGrid.new sh cells d) ops).current) := by
  constructor
  · rw [SudokuGrid.isSolved, decide_eq_true_eq]
  · intro hsolved
    rw [SudokuGrid.isSolved, decide_eq_true_eq] at hsolved
    have hsol : (applyOps (SudokuGrid.new sh cells d) ops).solution =
        (Generator.fill sh 81 0 zeroGrid).2.1 := by
      rw [applyOps_solution, new_solution_eq]
    have hbounds := (fill_result_valid sh hsh).2.1
    have hnc := (fill_result_valid sh hsh).2.2
    have hcur : (applyOps (SudokuGrid.new sh cells d) ops).current =
        (Generator.fill sh 81 0 zeroGrid).2.1 := by
      funext r c
      rw [hsolved r c, hsol]
    constructor
    · intro r c
      rw [hcur]
      have := (hbounds r c).1
      omega
    · rw [hcur]
      exact hnc

/-- Witness for the amended C4 at a concrete oracle, cell list, difficulty,
and the empty move sequence. -/
theorem C4_amended_solved_iff_witness :
    (∀ k : Nat, (constSh k).Perm nums19) ∧
    ((applyOps (SudokuGrid.new constSh allCells .easy) []).isSolved = true ↔
      ∀ r c, (applyOps (SudokuGrid.new constSh allCells .easy) []).current r c =
        (applyOps (SudokuGrid.new constSh allCells .easy) []).solution r c) :=
  ⟨fun _ => List.Perm.refl _,
    (C4_amended_solved_iff constSh allCells .easy []
      fun _ => List.Perm.refl _).1⟩

set_option maxRecDepth 100000 in
/-- C4 counterexample: `cexFinal` is reachable (built by `SudokuGrid::new`
on Hard with a shuffle oracle that generates the solution `S0`, then by
`set_number` moves writing `S1` — `S0` with rows 0 and 1 exchanged — into
every removed cell).  Its `current` grid is completely filled and satisfies
every row, column, and box constraint, yet `is_solved()` is `false`: the
claimed equivalence between `current == solution` and "full and
constraint-satisfying" fails on this reachable state. -/
theorem C4_counterexample_full_consistent_not_solved :
    (∀ r c, 1 ≤ cexFinal.current r c ∧ cexFinal.current r c ≤ 9) ∧
    noConflicts cexFinal.current ∧
    cexFinal.isSolved = false ∧
    ¬((∀ r c, cexFinal.current r c = cexFinal.solution r c) ↔
      ((∀ r c, cexFinal.current r c ≠ 0) ∧ noConflicts cexFinal.current)) := by
  have hcur : ∀ r c, cexFinal.current r c = S1 r c := by decide
  have hS1 : validSolution S1 := by decide
  have hfun : cexFinal.current = S1 := funext fun r => funext fun c => hcur r c
  have hfullb : ∀ r c,
      1 ≤ cexFinal.current r c ∧ cexFinal.current r c ≤ 9 := by
    intro r c
    rw [hcur]
    exact hS1.1 r c
  have hnc : noConflicts cexFinal.current := by
    rw [hfun]
    exact noConflicts_of_valid hS1
  have hfalse : cexFinal.isSolved = false := by decide
  refine ⟨hfullb, hnc, hfalse, ?_⟩
  intro hiff
  have heq := hiff.mpr ⟨fun r c => by have := (hfullb r c).1; omega, hnc⟩
  have htrue : cexFinal.isSolved = true := by
    rw [SudokuGrid.isSolved, decide_eq_true_eq]
    exact heq
  rw [hfalse] at htrue
  exact absurd htrue (by simp)
